import Mathlib

/-!
Shallow embedding of the RemoteZappy gesture-control core
(`gesture_control/preprocessing.py`, `recognizer.py`, `mlp.py`, `meta.py`,
`gesture_integrity.py`) together with theorems settling the spec claims.

Conventions of the embedding:
* Python floats are modelled as exact numbers: `ℝ` where the code computes
  square roots / exponentials (`np.linalg.norm`, `softmax`), `ℚ` where only
  field arithmetic and comparisons occur (probability thresholds, landmark
  statistics).
* Numpy arrays are modelled as lists; a `(N, 2)` array is a `List (ℝ × ℝ)`.
* Raised exceptions are modelled with `Except`.
* Randomness (`np.random.shuffle`, `np.random.uniform`) is modelled by
  explicit function parameters supplying the shuffled order / drawn vectors.
-/

/-- Model of `np.max` on a nonempty array, given as head plus tail:
`np.max (x :: xs) = foldl max x xs`. -/
def npMax {α : Type} [LinearOrder α] (x : α) (xs : List α) : α :=
  xs.foldl max x

/-- Model of `np.argmax`: index of the first occurrence of the maximum.
On `x :: xs`, the result is `0` when `x` is already maximal, otherwise one
past the argmax of the tail. -/
def argmaxIdx {α : Type} [LinearOrder α] : List α → ℕ
  | [] => 0
  | x :: xs => if x < npMax x xs then argmaxIdx xs + 1 else 0

/-- Model of `arr.reshape((-1, 3))`: group a flat list into triples.
A trailing fragment shorter than 3 is dropped (the callers below only use
it on lists whose length is a multiple of 3, or guard on `length % 3`). -/
def chunk3 {α : Type} : List α → List (α × α × α)
  | x :: y :: z :: rest => (x, y, z) :: chunk3 rest
  | _ => []

/-- Model of `rel.flatten()` for an `(N, 2)` array: row-major flattening. -/
def flat2 {α : Type} (l : List (α × α)) : List α :=
  l.flatMap (fun p => [p.1, p.2])

/-! ## Preprocessor (`preprocessing.py`, `preprocess_gesture`) -/

/-- Row norm `np.linalg.norm(rel, axis=1)` for one row: `sqrt (x² + y²)`. -/
noncomputable def ptNorm (p : ℝ × ℝ) : ℝ :=
  Real.sqrt (p.1 ^ 2 + p.2 ^ 2)

/-- Line `rel = arr - base` of `preprocess_gesture`. -/
def relPoints (base : ℝ × ℝ) (pts : List (ℝ × ℝ)) : List (ℝ × ℝ) :=
  pts.map (fun p => (p.1 - base.1, p.2 - base.2))

/-- Lines `dists = np.linalg.norm(rel, axis=1); max_dist = np.max(dists)`. -/
noncomputable def maxDist (rel : List (ℝ × ℝ)) : ℝ :=
  npMax ((rel.map ptNorm).headD 0) (rel.map ptNorm).tail

/-- Lines `if max_dist == 0: rel = np.zeros_like(rel) else: rel = rel / max_dist`. -/
noncomputable def scaleRel (m : ℝ) (rel : List (ℝ × ℝ)) : List (ℝ × ℝ) :=
  if m = 0 then rel.map (fun _ => (0, 0))
  else rel.map (fun p => (p.1 / m, p.2 / m))

/-- Core of `preprocess_gesture` once the input is a list of 2-D points
(z already dropped): subtract the first point, normalize by the maximum
distance, flatten.  The empty case never occurs in the code (indexing
`arr[0]` would raise); it is mapped to the empty feature vector. -/
noncomputable def preprocess_pts : List (ℝ × ℝ) → List ℝ
  | [] => []
  | base :: rest =>
      flat2 (scaleRel (maxDist (relPoints base (base :: rest)))
                      (relPoints base (base :: rest)))

/-- Error raised by `preprocess_gesture` for a flat input whose length is
neither 126 nor 63 (`ValueError: Unexpected flattened input shape`). -/
inductive ShapeError : Type
  | invalidShape (n : ℕ)
deriving DecidableEq

/-- Dropping the z coordinate (`arr = arr[:, :2]`). -/
def dropZ (p : ℝ × ℝ × ℝ) : ℝ × ℝ :=
  (p.1, p.2.1)

/-- Model of `preprocess_gesture` on a flat 1-D input: length 126 is
reshaped to 42 × 3, length 63 to 21 × 3, anything else raises; then the z
coordinate is dropped and `preprocess_pts` runs. -/
noncomputable def preprocess_gesture (flat : List ℝ) : Except ShapeError (List ℝ) :=
  if flat.length = 126 then .ok (preprocess_pts ((chunk3 flat).map dropZ))
  else if flat.length = 63 then .ok (preprocess_pts ((chunk3 flat).map dropZ))
  else .error (.invalidShape flat.length)

/-! ## Fallback rule-based arbiter (`recognizer.py` lines 156-168)

The per-gesture probabilities are Python floats compared against the
constants 0.8 and 0.15; only field arithmetic occurs, so they are
modelled as rationals. -/

def CONFIDENCE_THRESHOLD : ℚ := 8 / 10

def CONFUSION_THRESHOLD : ℚ := 15 / 100

/-- Fallback decision of `GestureRecognizer.recognize` when no
meta-classifier is loaded: argmax, sort descending for the second-best,
then the two threshold tests.  `sorted(gesture_probs, reverse=True)` is
modelled by Mathlib's insertion sort with `≥`. -/
def fallbackDecide (gestures : List String) (gesture_probs : List ℚ) : String :=
  let best_idx := argmaxIdx gesture_probs
  let best_prob := gesture_probs.getD best_idx 0
  let sorted_probs := List.insertionSort (· ≥ ·) gesture_probs
  let second_best_prob := if 1 < sorted_probs.length then sorted_probs.getD 1 0 else 0
  if best_prob < CONFIDENCE_THRESHOLD then "unknown"
  else if best_prob - second_best_prob < CONFUSION_THRESHOLD then "unknown"
  else gestures.getD best_idx ""

/-! ## Meta-classifier decision (`recognizer.py` lines 150-155) -/

/-- `torch.softmax` over one row of logits. -/
noncomputable def softmax (l : List ℝ) : List ℝ :=
  l.map (fun x => Real.exp x / (l.map Real.exp).sum)

/-- Decision of `GestureRecognizer.recognize` when a meta-classifier is
loaded: `best_idx = argmax (softmax (meta_out))`; the label is `"unknown"`
when `best_idx` equals the number of gestures, else the gesture name at
`best_idx`.  `metaOut` stands for the logits `meta_model(probability_vector)`;
the weights of the network itself are opaque data, so the decision is
stated for an arbitrary logit vector. -/
noncomputable def metaDecide (gestures : List String) (metaOut : List ℝ) : String :=
  if argmaxIdx (softmax metaOut) = gestures.length then "unknown"
  else gestures.getD (argmaxIdx (softmax metaOut)) ""

/-! ## Dataset construction (`mlp.py`, `GestureDataset.__init__`)

Stored `.npy` samples are flat arrays of reals.  `np.load` of an existing
file always succeeds in the modelled fragment; `preprocess_gesture` may
raise, and that exception propagates out of `__init__` (the code does not
catch it), hence the `Except`.  `np.random.shuffle` is modelled by an
explicit `shuffle` parameter, and the 20 draws of
`np.random.uniform(-1, 1, feature_dim)` by an explicit `noiseGen`
parameter giving the i-th drawn vector. -/

/-- The positive-collection loop of `GestureDataset.__init__` (and the
identical inner loop of the negative collection): preprocess every stored
sample, keep those whose preprocessed size equals `feature_dim`
(the result of `preprocess_gesture` is always 1-D, so the `ndim != 1`
part of the guard never fires), and propagate any preprocessing error. -/
noncomputable def processStored (feature_dim : ℕ) :
    List (List ℝ) → Except ShapeError (List (List ℝ))
  | [] => .ok []
  | r :: rs => do
      let a ← preprocess_gesture r
      let rest ← processStored feature_dim rs
      .ok (if a.length = feature_dim then a :: rest else rest)

/-- The negative-collection loop over all other gestures: process each
other gesture's stored samples in order and concatenate the survivors. -/
noncomputable def processOthers (feature_dim : ℕ) :
    List (List (List ℝ)) → Except ShapeError (List (List ℝ))
  | [] => .ok []
  | g :: gs => do
      let a ← processStored feature_dim g
      let rest ← processOthers feature_dim gs
      .ok (a ++ rest)

/-- Errors of `GestureDataset.__init__`: a propagated preprocessing error,
or the final `ValueError("No valid samples found ...")`. -/
inductive DatasetError : Type
  | shape (e : ShapeError)
  | emptyDataset
deriving DecidableEq

/-- The assembled dataset: `self.samples` and `self.labels` (1.0 for a
positive, 0.0 for a negative). -/
structure GestureDataset : Type where
  samples : List (List ℝ)
  labels : List ℚ

/-- Model of `GestureDataset.__init__` for one gesture.  `posStored` is
the list of stored samples of the gesture itself, `otherStored` the lists
of stored samples of every other gesture (the code skips
`other == gesture_name`, so the caller passes the others only).
`negFactor` is the `negative_ratio` argument.  Steps, in code order:
positives; pooled negatives shuffled and truncated to
`len(positives) * negative_ratio`; 20 noise vectors; 10 zero vectors;
final emptiness check. -/
noncomputable def gestureDatasetInit (feature_dim negFactor : ℕ)
    (posStored : List (List ℝ)) (otherStored : List (List (List ℝ)))
    (shuffle : List (List ℝ) → List (List ℝ)) (noiseGen : ℕ → List ℝ) :
    Except DatasetError GestureDataset :=
  match processStored feature_dim posStored with
  | .error e => .error (.shape e)
  | .ok pos =>
    match processOthers feature_dim otherStored with
    | .error e => .error (.shape e)
    | .ok pool =>
      let negs := (shuffle pool).take (pos.length * negFactor)
      let noise := (List.range 20).map noiseGen
      let zeros := List.replicate 10 (List.replicate feature_dim (0 : ℝ))
      let samples := pos ++ negs ++ noise ++ zeros
      let labels := List.replicate pos.length (1 : ℚ) ++
        List.replicate negs.length 0 ++ List.replicate 20 0 ++ List.replicate 10 0
      if samples.length = 0 then .error .emptyDataset
      else .ok ⟨samples, labels⟩

/-! ## Dataset integrity (`gesture_integrity.py`)

Stored samples are modelled as flat lists of rationals (only equality
with zero and field arithmetic occur, except for the final standard
deviation, which needs a square root and lives in `ℝ`).  The thresholds
are the defaults written to `gestures.json` when it is absent. -/

def ZERO_LANDMARKS_THRESHOLD : ℚ := 5 / 100

def MEAN_LANDMARKS_THRESHOLD : ℚ := 5

def STD_LANDMARKS_THRESHOLD : ℝ := 6

/-- Model of `count_nonzero_landmarks`: an empty array counts 0; an array
whose size is not a multiple of 3 cannot be reshaped to `(-1, 3)` and
counts 0; otherwise count the triples with any nonzero coordinate. -/
def count_nonzero_landmarks (arr : List ℚ) : ℕ :=
  if arr.length = 0 then 0
  else if arr.length % 3 ≠ 0 then 0
  else ((chunk3 arr).filter
    (fun p => !(p.1 == 0 && p.2.1 == 0 && p.2.2 == 0))).length

/-- The per-file counts gathered by `evaluate_landmark_integrity` over a
directory, modelled as the list of its `.npy` contents. -/
def landmarkCounts (directory : List (List ℚ)) : List ℕ :=
  directory.map count_nonzero_landmarks

/-- `np.mean` of the counts (`0.0` for an empty directory, as returned by
the early-exit branch of `evaluate_landmark_integrity`). -/
def countsMean (directory : List (List ℚ)) : ℚ :=
  if directory.length = 0 then 0
  else (((landmarkCounts directory).map (fun c => (c : ℚ))).sum) / directory.length

/-- Population variance of the counts, the square under `np.std`. -/
def countsVar (directory : List (List ℚ)) : ℚ :=
  if directory.length = 0 then 0
  else (((landmarkCounts directory).map
    (fun c => ((c : ℚ) - countsMean directory) ^ 2)).sum) / directory.length

/-- `np.std` of the counts. -/
noncomputable def countsStd (directory : List (List ℚ)) : ℝ :=
  Real.sqrt (countsVar directory)

/-- `count_zero` of `evaluate_landmark_integrity`: number of samples with
zero present landmarks. -/
def zeroCount (directory : List (List ℚ)) : ℕ :=
  (landmarkCounts directory).count 0

/-- Model of `health_check`: the four threshold tests in code order. -/
noncomputable def health_check (directory : List (List ℚ)) : Bool × String :=
  if directory.length = 0 then (false, "empty")
  else if (zeroCount directory : ℚ) / directory.length > ZERO_LANDMARKS_THRESHOLD then
    (false, "zeros")
  else if countsMean directory < MEAN_LANDMARKS_THRESHOLD then (false, "landmarks")
  else if countsStd directory > STD_LANDMARKS_THRESHOLD then (false, "inconsistent")
  else (true, "healthy")

/-! ## Meta-classifier training (`meta.py`, `train_meta_classifier`)

The abort condition `len(set(y_meta)) < 2` depends only on the labels
`y_meta`, never on the probability vectors `X_meta` (which are outputs of
the loaded per-gesture networks, opaque data here).  The embedding
therefore builds the label list exactly as the code does and models the
outcome on an abstract model store. -/

/-- Labels contributed by one gesture directory: one copy of the gesture
index `idx` per stored sample that preprocesses to the expected size;
preprocessing errors propagate (the code does not catch them). -/
noncomputable def gestureLabels (input_size idx : ℕ) :
    List (List ℝ) → Except ShapeError (List ℕ)
  | [] => .ok []
  | r :: rs => do
      let a ← preprocess_gesture r
      let rest ← gestureLabels input_size idx rs
      .ok (if a.length = input_size then idx :: rest else rest)

/-- Labels contributed by all gesture directories, enumerated from `idx`. -/
noncomputable def realLabelsFrom (input_size idx : ℕ) :
    List (List (List ℝ)) → Except ShapeError (List ℕ)
  | [] => .ok []
  | g :: gs => do
      let a ← gestureLabels input_size idx g
      let rest ← realLabelsFrom input_size (idx + 1) gs
      .ok (a ++ rest)

/-- The full `y_meta` of `train_meta_classifier`: real labels, then 50
noise-derived and 20 zero-derived samples labelled with the unknown index
`len(gestures)`. -/
noncomputable def metaTrainLabels (input_size : ℕ) (stored : List (List (List ℝ))) :
    Except ShapeError (List ℕ) := do
  let real ← realLabelsFrom input_size 0 stored
  .ok (real ++ List.replicate 50 stored.length ++ List.replicate 20 stored.length)

/-- Outcome of `train_meta_classifier`. -/
inductive MetaTrainOutcome : Type
  | aborted
  | savedModel
deriving DecidableEq

/-- Model of `train_meta_classifier`.  `store` is the current contents of
the model-artifact slot `models_dir/meta_classifier.pth` (`some` if a file
exists).  If fewer than 2 distinct labels occur, the function prints and
returns, leaving the store untouched; otherwise it trains and overwrites
the store.  `(·.dedup.length)` models `len(set(y_meta))`. -/
noncomputable def train_meta_classifier (input_size : ℕ)
    (stored : List (List (List ℝ))) (store : Option Unit) :
    Except ShapeError (MetaTrainOutcome × Option Unit) := do
  let y ← metaTrainLabels input_size stored
  if y.dedup.length < 2 then .ok (.aborted, store)
  else .ok (.savedModel, some ())

/-! ## Recognition-loop frame handling (`recognizer.py` lines 170-174) -/

/-- One recognition result
`(label, gesture_probs, meta_probs, gestures, meta_classes)`. -/
structure RecognitionResult : Type where
  label : String
  gestureProbs : List ℝ
  metaProbs : List ℝ
  gestures : List String
  metaClasses : List String

/-- Observable engine state touched by the tail of a loop iteration:
the stored last result and the histories of callback invocations. -/
structure LoopState : Type where
  lastResult : Option RecognitionResult
  onFrameCalls : List RecognitionResult
  onGestureCalls : List RecognitionResult

/-- Model of lines 170-174 of `recognizer.py` for one processed frame:
`self._last_result = r`; `if callback: callback(r)`;
`if on_gesture and label != 'unknown': on_gesture(r)`.
`hasCallback` / `hasOnGesture` say whether the optional callbacks were
supplied. -/
def processFrame (hasCallback hasOnGesture : Bool) (r : RecognitionResult)
    (s : LoopState) : LoopState :=
  { lastResult := some r
    onFrameCalls := if hasCallback then s.onFrameCalls ++ [r] else s.onFrameCalls
    onGestureCalls :=
      if hasOnGesture = true ∧ r.label ≠ "unknown" then s.onGestureCalls ++ [r]
      else s.onGestureCalls }

/-! ## Lemmas about `npMax` and `argmaxIdx` -/

theorem npMax_cons {α : Type} [LinearOrder α] (x y : α) (ys : List α) :
    npMax x (y :: ys) = npMax (max x y) ys := rfl

theorem max_npMax {α : Type} [LinearOrder α] (a b : α) (l : List α) :
    npMax (max a b) l = max a (npMax b l) := by
  induction l generalizing b with
  | nil => rfl
  | cons c cs ih => rw [npMax_cons, npMax_cons, max_assoc, ih]

theorem le_npMax_self {α : Type} [LinearOrder α] (x : α) (xs : List α) :
    x ≤ npMax x xs := by
  induction xs generalizing x with
  | nil => exact le_refl x
  | cons y ys ih => exact le_trans (le_max_left x y) (ih (max x y))

theorem le_npMax_of_mem {α : Type} [LinearOrder α] {y : α} {xs : List α} (x : α)
    (h : y ∈ xs) : y ≤ npMax x xs := by
  induction xs generalizing x with
  | nil => cases h
  | cons z zs ih =>
      rw [npMax_cons]
      rcases List.mem_cons.1 h with h1 | h2
      · exact h1 ▸ le_trans (le_max_right x y) (le_npMax_self _ _)
      · exact ih _ h2

theorem npMax_eq_or_mem {α : Type} [LinearOrder α] (x : α) (xs : List α) :
    npMax x xs = x ∨ npMax x xs ∈ xs := by
  induction xs generalizing x with
  | nil => exact Or.inl rfl
  | cons y ys ih =>
      rw [npMax_cons]
      rcases ih (max x y) with h | h
      · rcases max_choice x y with hx | hy
        · exact Or.inl (h.trans hx)
        · exact Or.inr (by rw [h, hy]; exact List.mem_cons_self y ys)
      · exact Or.inr (List.mem_cons_of_mem y h)

theorem npMax_mem_cons {α : Type} [LinearOrder α] (x : α) (xs : List α) :
    npMax x xs ∈ x :: xs := by
  rcases npMax_eq_or_mem x xs with h | h
  · rw [h]; exact List.mem_cons_self x xs
  · exact List.mem_cons_of_mem x h

theorem npMax_eq_of_ub {α : Type} [LinearOrder α] {b : α} (x : α) (xs : List α)
    (hmem : b ∈ x :: xs) (hub : ∀ p ∈ x :: xs, p ≤ b) : npMax x xs = b := by
  apply le_antisymm
  · exact hub _ (npMax_mem_cons x xs)
  · rcases List.mem_cons.1 hmem with h | h
    · rw [h]; exact le_npMax_self x xs
    · exact le_npMax_of_mem x h

theorem npMax_replicate {α : Type} [LinearOrder α] (k : ℕ) (x : α) :
    npMax x (List.replicate k x) = x := by
  induction k with
  | zero => rfl
  | succ n ih => rw [List.replicate_succ, npMax_cons, max_self]; exact ih

theorem argmaxIdx_eq_indexOf {α : Type} [LinearOrder α] (x : α) (xs : List α) :
    argmaxIdx (x :: xs) = (x :: xs).indexOf (npMax x xs) := by
  induction xs generalizing x with
  | nil =>
      simp [argmaxIdx, npMax, List.indexOf_cons_self]
  | cons y ys ih =>
      by_cases hlt : x < npMax x (y :: ys)
      · have hxm : npMax x (y :: ys) = max x (npMax y ys) := by
          rw [npMax_cons, max_npMax]
        have hle : x ≤ npMax y ys := by
          rcases le_or_lt x (npMax y ys) with h | h
          · exact h
          · exfalso
            rw [hxm, max_eq_left h.le] at hlt
            exact lt_irrefl x hlt
        have hm : npMax x (y :: ys) = npMax y ys := by rw [hxm, max_eq_right hle]
        have hxne : x ≠ npMax y ys := by
          intro he
          rw [hm, ← he] at hlt
          exact lt_irrefl x hlt
        have hL : argmaxIdx (x :: y :: ys) =
            if x < npMax x (y :: ys) then argmaxIdx (y :: ys) + 1 else 0 := rfl
        rw [hL, if_pos hlt, hm, List.indexOf_cons_ne _ (fun he => hxne he), ih y,
          Nat.succ_eq_add_one]
      · have hx : npMax x (y :: ys) = x :=
          le_antisymm (not_lt.1 hlt) (le_npMax_self x (y :: ys))
        rw [hx, List.indexOf_cons_self]
        simp [argmaxIdx, hlt]

theorem argmaxIdx_lt_length {α : Type} [LinearOrder α] (x : α) (xs : List α) :
    argmaxIdx (x :: xs) < (x :: xs).length := by
  rw [argmaxIdx_eq_indexOf]
  exact List.indexOf_lt_length.2 (npMax_mem_cons x xs)

theorem getD_argmaxIdx {α : Type} [LinearOrder α] (x : α) (xs : List α) (d : α) :
    (x :: xs).getD (argmaxIdx (x :: xs)) d = npMax x xs := by
  rw [argmaxIdx_eq_indexOf,
    List.getD_eq_getElem _ d (List.indexOf_lt_length.2 (npMax_mem_cons x xs)),
    List.getElem_indexOf]

/-! ## Second-best element via descending sort -/

theorem sorted_desc_second {α : Type} [LinearOrder α] (probs : List α) (b s2 d : α)
    (hmem : b ∈ probs) (hub : ∀ p ∈ probs, p ≤ b)
    (hs2a : probs.erase b = [] → s2 = d)
    (hs2b : probs.erase b ≠ [] →
      s2 ∈ probs.erase b ∧ ∀ p ∈ probs.erase b, p ≤ s2) :
    (if 1 < (List.insertionSort (· ≥ ·) probs).length
     then (List.insertionSort (· ≥ ·) probs).getD 1 d else d) = s2 := by
  have hperm : List.Perm (List.insertionSort (· ≥ ·) probs) probs :=
    List.perm_insertionSort _ probs
  have hsort : List.Sorted (· ≥ ·) (List.insertionSort (· ≥ ·) probs) :=
    List.sorted_insertionSort _ probs
  rcases hL : List.insertionSort (· ≥ ·) probs with _ | ⟨h0, rest⟩
  · exfalso
    rw [hL] at hperm
    rw [← hperm.mem_iff] at hmem
    cases hmem
  · rw [hL] at hperm hsort
    have hh0 : h0 = b := by
      apply le_antisymm
      · exact hub h0 (hperm.subset (List.mem_cons_self h0 rest))
      · have hbL : b ∈ h0 :: rest := hperm.mem_iff.2 hmem
        rcases List.mem_cons.1 hbL with h | h
        · exact h.le
        · exact (List.sorted_cons.1 hsort).1 b h
    have hrest : List.Perm rest (probs.erase b) := by
      have h1 : List.Perm probs (b :: probs.erase b) := List.perm_cons_erase hmem
      have h2 : List.Perm (b :: rest) (b :: probs.erase b) :=
        (hh0 ▸ hperm).trans h1
      exact h2.cons_inv
    rcases rest with _ | ⟨s, t⟩
    · have her : probs.erase b = [] := (hrest.symm).eq_nil
      rw [if_neg (by simp)]
      exact (hs2a her).symm
    · have hne : probs.erase b ≠ [] := by
        intro he
        rw [he] at hrest
        exact absurd hrest.eq_nil (by simp)
      obtain ⟨hs2mem, hs2ub⟩ := hs2b hne
      have hsrest : List.Sorted (· ≥ ·) (s :: t) := (List.sorted_cons.1 hsort).2
      have hs_eq : s = s2 := by
        apply le_antisymm
        · exact hs2ub s (hrest.subset (List.mem_cons_self s t))
        · have : s2 ∈ s :: t := hrest.mem_iff.2 hs2mem
          rcases List.mem_cons.1 this with h | h
          · exact h.le
          · exact (List.sorted_cons.1 hsrest).1 s2 h
      rw [if_pos (by simp)]
      exact hs_eq

/-! ## Claim C3: fallback rule-based arbiter -/

/-- C3: when no meta-classifier is available, the fallback arbiter maps a
probability vector to "unknown" if the maximum probability is below 0.8,
else to "unknown" if the margin between the highest and second-highest
probability is below 0.15, else to the gesture name at the first argmax
index; and the three concrete examples from the spec hold. -/
theorem C3_fallback_rule :
    (∀ (gestures : List String) (probs : List ℚ) (b s2 : ℚ),
      b ∈ probs → (∀ p ∈ probs, p ≤ b) →
      (probs.erase b = [] → s2 = 0) →
      (probs.erase b ≠ [] →
        s2 ∈ probs.erase b ∧ ∀ p ∈ probs.erase b, p ≤ s2) →
      fallbackDecide gestures probs =
        (if b < 8 / 10 then "unknown"
         else if b - s2 < 15 / 100 then "unknown"
         else gestures.getD (probs.indexOf b) "")) ∧
    fallbackDecide ["fire", "ice", "shield"] [9/10, 5/10, 3/10] = "fire" ∧
    fallbackDecide ["fire", "ice", "shield"] [85/100, 80/100, 1/10] = "unknown" ∧
    fallbackDecide ["fire", "ice", "shield"] [6/10, 1/10, 1/10] = "unknown" := by
  have hgen : ∀ (gestures : List String) (probs : List ℚ) (b s2 : ℚ),
      b ∈ probs → (∀ p ∈ probs, p ≤ b) →
      (probs.erase b = [] → s2 = 0) →
      (probs.erase b ≠ [] →
        s2 ∈ probs.erase b ∧ ∀ p ∈ probs.erase b, p ≤ s2) →
      fallbackDecide gestures probs =
        (if b < 8 / 10 then "unknown"
         else if b - s2 < 15 / 100 then "unknown"
         else gestures.getD (probs.indexOf b) "") := by
    intro gestures probs b s2 hmem hub hs2a hs2b
    rcases probs with _ | ⟨x, xs⟩
    · cases hmem
    · have hb : npMax x xs = b := npMax_eq_of_ub x xs hmem hub
      have hbest : (x :: xs).getD (argmaxIdx (x :: xs)) 0 = b := by
        rw [getD_argmaxIdx, hb]
      have hsecond := sorted_desc_second (x :: xs) b s2 0 hmem hub hs2a hs2b
      have hidx : argmaxIdx (x :: xs) = (x :: xs).indexOf b := by
        rw [argmaxIdx_eq_indexOf, hb]
      simp only [fallbackDecide, CONFIDENCE_THRESHOLD, CONFUSION_THRESHOLD]
      rw [hbest, hsecond, hidx]
  refine ⟨hgen, ?_, ?_, ?_⟩
  · have herase : ([9/10, 5/10, 3/10] : List ℚ).erase (9/10) = [5/10, 3/10] :=
      List.erase_cons_head _ _
    have h := hgen ["fire", "ice", "shield"] [9/10, 5/10, 3/10] (9/10) (5/10)
      (by simp)
      (by intro p hp; fin_cases hp <;> norm_num)
      (by rw [herase]; intro h; exact absurd h (by simp))
      (by rw [herase]
          refine fun _ => ⟨by simp, ?_⟩
          intro p hp; fin_cases hp <;> norm_num)
    rw [h, if_neg (by norm_num), if_neg (by norm_num), List.indexOf_cons_self]
    rfl
  · have herase : ([85/100, 80/100, 1/10] : List ℚ).erase (85/100) =
        [80/100, 1/10] := List.erase_cons_head _ _
    have h := hgen ["fire", "ice", "shield"] [85/100, 80/100, 1/10] (85/100) (80/100)
      (by simp)
      (by intro p hp; fin_cases hp <;> norm_num)
      (by rw [herase]; intro h; exact absurd h (by simp))
      (by rw [herase]
          refine fun _ => ⟨by simp, ?_⟩
          intro p hp; fin_cases hp <;> norm_num)
    rw [h, if_neg (by norm_num), if_pos (by norm_num)]
  · have herase : ([6/10, 1/10, 1/10] : List ℚ).erase (6/10) = [1/10, 1/10] :=
      List.erase_cons_head _ _
    have h := hgen ["fire", "ice", "shield"] [6/10, 1/10, 1/10] (6/10) (1/10)
      (by simp)
      (by intro p hp; fin_cases hp <;> norm_num)
      (by rw [herase]; intro h; exact absurd h (by simp))
      (by rw [herase]
          refine fun _ => ⟨by simp, ?_⟩
          intro p hp; fin_cases hp <;> norm_num)
    rw [h, if_pos (by norm_num)]

/-- Witness for C3: the first spec example, obtained from the general rule
at a concrete input. -/
theorem C3_witness :
    fallbackDecide ["fire", "ice", "shield"] [9/10, 5/10, 3/10] = "fire" := by
  have herase : ([9/10, 5/10, 3/10] : List ℚ).erase (9/10) = [5/10, 3/10] :=
    List.erase_cons_head _ _
  have h := C3_fallback_rule.1 ["fire", "ice", "shield"] [9/10, 5/10, 3/10]
    (9/10) (5/10)
    (by simp)
    (by intro p hp; fin_cases hp <;> norm_num)
    (by rw [herase]; intro h; exact absurd h (by simp))
    (by rw [herase]
        refine fun _ => ⟨by simp, ?_⟩
        intro p hp; fin_cases hp <;> norm_num)
  rw [h, if_neg (by norm_num), if_neg (by norm_num), List.indexOf_cons_self]
  rfl

/-! ## Claim C4: meta-classifier decision -/

theorem softmax_length (l : List ℝ) : (softmax l).length = l.length := by
  simp [softmax]

theorem argmaxIdx_lt_length_of_ne {α : Type} [LinearOrder α] (l : List α)
    (h : l ≠ []) : argmaxIdx l < l.length := by
  rcases l with _ | ⟨x, xs⟩
  · exact absurd rfl h
  · exact argmaxIdx_lt_length x xs

/-- C4 counterexample: with a gesture directory literally named
`"unknown"`, the label is `"unknown"` although the argmax index differs
from `num_gestures`, refuting the claimed equivalence. -/
theorem C4_counterexample :
    metaDecide ["unknown"] [0, 0] = "unknown" ∧
    argmaxIdx (softmax [(0:ℝ), 0]) ≠ (["unknown"] : List String).length := by
  have hsm : softmax [(0:ℝ), 0] = [1/2, 1/2] := by
    simp [softmax]
    norm_num
  have harg : argmaxIdx (softmax [(0:ℝ), 0]) = 0 := by
    rw [hsm]
    simp [argmaxIdx, npMax]
  refine ⟨?_, by rw [harg]; simp⟩
  simp [metaDecide, harg]

/-- C4 (amended): provided no gesture is itself named "unknown" and the
logit vector has `num_gestures + 1` entries, the label is `"unknown"`
exactly when the argmax of the softmaxed logits equals `num_gestures`,
and otherwise it is the gesture name at the argmax index. -/
theorem C4_meta_decision (gestures : List String) (metaOut : List ℝ)
    (hne : metaOut ≠ []) (hnu : "unknown" ∉ gestures)
    (hlen : metaOut.length = gestures.length + 1) :
    (metaDecide gestures metaOut = "unknown" ↔
      argmaxIdx (softmax metaOut) = gestures.length) ∧
    (argmaxIdx (softmax metaOut) ≠ gestures.length →
      metaDecide gestures metaOut =
        gestures.getD (argmaxIdx (softmax metaOut)) "") := by
  have hsne : softmax metaOut ≠ [] := by
    simp only [softmax, ne_eq, List.map_eq_nil_iff]
    exact hne
  have hlt : argmaxIdx (softmax metaOut) < gestures.length + 1 := by
    have h := argmaxIdx_lt_length_of_ne (softmax metaOut) hsne
    rwa [softmax_length, hlen] at h
  have hmain : ∀ h : argmaxIdx (softmax metaOut) ≠ gestures.length,
      metaDecide gestures metaOut =
        gestures.getD (argmaxIdx (softmax metaOut)) "" := by
    intro h
    simp [metaDecide, h]
  refine ⟨⟨?_, ?_⟩, hmain⟩
  · intro hu
    by_contra hne2
    have hilt : argmaxIdx (softmax metaOut) < gestures.length := by omega
    rw [hmain hne2, List.getD_eq_getElem _ _ hilt] at hu
    exact hnu (hu ▸ List.getElem_mem hilt)
  · intro h
    simp [metaDecide, h]

/-- Witness for C4: one gesture, logits favouring the last (synthetic
unknown) class. -/
theorem C4_witness : metaDecide ["fire"] [0, 1] = "unknown" := by
  have h1e : (1:ℝ) < Real.exp 1 := by
    have := Real.add_one_le_exp (1:ℝ)
    linarith
  have harg : argmaxIdx (softmax [(0:ℝ), 1]) = 1 := by
    simp only [softmax, List.map_cons, List.map_nil, List.sum_cons,
      List.sum_nil, Real.exp_zero, add_zero]
    have hab : ((1:ℝ) + Real.exp 1)⁻¹ < Real.exp 1 / (1 + Real.exp 1) := by
      rw [inv_eq_one_div]
      gcongr
    simp [argmaxIdx, npMax, max_eq_right hab.le, hab]
  exact (C4_meta_decision ["fire"] [0, 1] (by simp) (by decide) (by simp)).1.mpr
    (by rw [harg]; rfl)

/-! ## Length lemmas for the preprocessor -/

theorem flat2_length {α : Type} (l : List (α × α)) : (flat2 l).length = 2 * l.length := by
  induction l with
  | nil => rfl
  | cons p ps ih =>
      simp only [flat2, List.flatMap_cons] at ih ⊢
      simp [ih]
      omega

theorem scaleRel_length (m : ℝ) (rel : List (ℝ × ℝ)) :
    (scaleRel m rel).length = rel.length := by
  unfold scaleRel
  split <;> simp

theorem relPoints_length (base : ℝ × ℝ) (pts : List (ℝ × ℝ)) :
    (relPoints base pts).length = pts.length := by
  simp [relPoints]

theorem preprocess_pts_length (pts : List (ℝ × ℝ)) :
    (preprocess_pts pts).length = 2 * pts.length := by
  rcases pts with _ | ⟨base, rest⟩
  · rfl
  · show (flat2 (scaleRel _ _)).length = _
    rw [flat2_length, scaleRel_length, relPoints_length]

theorem chunk3_length {α : Type} : ∀ l : List α, (chunk3 l).length = l.length / 3
  | [] => by show (0:ℕ) = 0 / 3; omega
  | [_] => by show (0:ℕ) = 1 / 3; omega
  | [_, _] => by show (0:ℕ) = 2 / 3; omega
  | _ :: _ :: _ :: rest => by
      simp only [chunk3, List.length_cons, chunk3_length rest]
      omega

theorem chunk3_replicate {α : Type} (n : ℕ) (x : α) :
    chunk3 (List.replicate (3 * n) x) = List.replicate n (x, x, x) := by
  induction n with
  | zero => rfl
  | succ m ih =>
      have h3 : 3 * (m + 1) = 3 * m + 1 + 1 + 1 := by ring
      rw [h3, List.replicate_succ, List.replicate_succ, List.replicate_succ]
      simp only [chunk3, ih]
      rw [List.replicate_succ]

/-! ## Claim C8: accepted input shapes -/

/-- C8: `preprocess_gesture` accepts a flat input of length 126 (output
length 84) or 63 (output length 42) and fails with the invalid-shape
error on every other flat length. -/
theorem C8_shape_contract (flat : List ℝ) :
    (flat.length = 126 →
      ∃ out, preprocess_gesture flat = .ok out ∧ out.length = 84) ∧
    (flat.length = 63 →
      ∃ out, preprocess_gesture flat = .ok out ∧ out.length = 42) ∧
    (flat.length ≠ 126 → flat.length ≠ 63 →
      preprocess_gesture flat = .error (.invalidShape flat.length)) := by
  refine ⟨?_, ?_, ?_⟩
  · intro h
    refine ⟨preprocess_pts ((chunk3 flat).map dropZ), ?_, ?_⟩
    · simp [preprocess_gesture, h]
    · rw [preprocess_pts_length, List.length_map, chunk3_length, h]
  · intro h
    refine ⟨preprocess_pts ((chunk3 flat).map dropZ), ?_, ?_⟩
    · simp [preprocess_gesture, h]
    · rw [preprocess_pts_length, List.length_map, chunk3_length, h]
  · intro h1 h2
    unfold preprocess_gesture
    rw [if_neg h1, if_neg h2]

/-- Witness for C8: the all-zero two-hand sample is accepted with output
length 84, and a flat input of length 5 is rejected. -/
theorem C8_witness :
    (∃ out, preprocess_gesture (List.replicate 126 0) = .ok out ∧
      out.length = 84) ∧
    preprocess_gesture [0, 0, 0, 0, 0] = .error (.invalidShape 5) := by
  constructor
  · exact (C8_shape_contract _).1 (by simp)
  · have h := (C8_shape_contract [0, 0, 0, 0, 0]).2.2 (by simp) (by simp)
    simpa using h

/-! ## Claim C1: degenerate samples normalize to the zero vector -/

theorem npMax_zero_replicate (k : ℕ) : npMax (0:ℝ) (List.replicate k 0) = 0 :=
  npMax_replicate k 0

theorem ptNorm_zero : ptNorm (0, 0) = 0 := by
  simp [ptNorm]

theorem preprocess_pts_of_all_eq (base : ℝ × ℝ) (rest : List (ℝ × ℝ))
    (h : ∀ p ∈ base :: rest, p = base) :
    preprocess_pts (base :: rest) = List.replicate (2 * (rest.length + 1)) 0 := by
  have hrel : relPoints base (base :: rest) =
      List.replicate (rest.length + 1) ((0:ℝ), (0:ℝ)) := by
    have hlen : (relPoints base (base :: rest)).length = rest.length + 1 := by
      rw [relPoints_length, List.length_cons]
    rw [← hlen]
    apply List.eq_replicate_of_mem
    intro q hq
    simp only [relPoints, List.mem_map] at hq
    obtain ⟨p, hp, hq⟩ := hq
    rw [h p hp] at hq
    simp only [sub_self] at hq
    exact hq.symm
  have hmax : maxDist (relPoints base (base :: rest)) = 0 := by
    rw [hrel]
    unfold maxDist
    rw [List.map_replicate, ptNorm_zero, List.replicate_succ]
    simp only [List.headD_cons, List.tail_cons]
    exact npMax_zero_replicate rest.length
  show flat2 (scaleRel _ _) = _
  rw [hmax, hrel]
  unfold scaleRel
  rw [if_pos rfl, List.map_replicate]
  rw [List.eq_replicate_iff]
  constructor
  · rw [flat2_length, List.length_replicate]
  · intro b hb
    simp only [flat2, List.mem_flatMap, List.mem_replicate] at hb
    obtain ⟨p, hp, hbp⟩ := hb
    rw [hp.2] at hbp
    simpa using hbp

/-- C1: for every landmark sample in which all points equal the first
point, `preprocess_pts` (the core of `preprocess_gesture`) returns the
all-zero feature vector of the expected length (the zero branch is taken
and no division by `max_dist` occurs). -/
theorem C1_degenerate_sample (pts : List (ℝ × ℝ)) (hne : pts ≠ [])
    (h : ∀ p ∈ pts, p = pts.headD (0, 0)) :
    preprocess_pts pts = List.replicate (2 * pts.length) 0 ∧
    ∀ v ∈ preprocess_pts pts, v = 0 := by
  rcases pts with _ | ⟨base, rest⟩
  · exact absurd rfl hne
  · have h0 := preprocess_pts_of_all_eq base rest (by simpa using h)
    refine ⟨by simpa using h0, ?_⟩
    intro v hv
    rw [h0] at hv
    exact List.eq_of_mem_replicate hv

/-- Witness for C1: 42 copies of the same nonzero point. -/
theorem C1_witness :
    preprocess_pts ((1, 1) :: List.replicate 41 ((1:ℝ), 1)) =
      List.replicate 84 0 := by
  have h := (C1_degenerate_sample ((1, 1) :: List.replicate 41 ((1:ℝ), 1))
    (by simp)
    (by intro p hp
        rcases List.mem_cons.1 hp with h | h
        · simpa using h
        · simpa using List.eq_of_mem_replicate h)).1
  simpa using h

/-! ## Claim C2: translation and scale invariance of the preprocessor -/

theorem ptNorm_smul (s : ℝ) (hs : 0 ≤ s) (p : ℝ × ℝ) :
    ptNorm (s * p.1, s * p.2) = s * ptNorm p := by
  unfold ptNorm
  have h : (s * p.1) ^ 2 + (s * p.2) ^ 2 = s ^ 2 * (p.1 ^ 2 + p.2 ^ 2) := by
    ring
  rw [h, Real.sqrt_mul (sq_nonneg s), Real.sqrt_sq hs]

theorem npMax_map_mul (s : ℝ) (hs : 0 ≤ s) (x : ℝ) (xs : List ℝ) :
    npMax (s * x) (xs.map (fun a => s * a)) = s * npMax x xs := by
  induction xs generalizing x with
  | nil => rfl
  | cons y ys ih =>
      simp only [List.map_cons, npMax_cons]
      rw [← mul_max_of_nonneg x y hs]
      exact ih (max x y)

theorem maxDist_smul (s : ℝ) (hs : 0 ≤ s) (rel : List (ℝ × ℝ)) :
    maxDist (rel.map (fun q => (s * q.1, s * q.2))) = s * maxDist rel := by
  rcases rel with _ | ⟨r, rs⟩
  · simp [maxDist, npMax]
  · unfold maxDist
    simp only [List.map_cons, List.headD_cons, List.tail_cons]
    rw [ptNorm_smul s hs r]
    have hmaps : (rs.map (fun q => ((s * q.1, s * q.2) : ℝ × ℝ))).map ptNorm =
        (rs.map ptNorm).map (fun a => s * a) := by
      simp only [List.map_map]
      congr 1
      funext q
      exact ptNorm_smul s hs q
    rw [hmaps, npMax_map_mul s hs]

theorem scaleRel_smul (s : ℝ) (hs : s ≠ 0) (m : ℝ) (rel : List (ℝ × ℝ)) :
    scaleRel (s * m) (rel.map (fun q => (s * q.1, s * q.2))) = scaleRel m rel := by
  unfold scaleRel
  by_cases hm : m = 0
  · subst hm
    rw [mul_zero, if_pos rfl, if_pos rfl, List.map_map]
    rfl
  · have hsm : s * m ≠ 0 := mul_ne_zero hs hm
    rw [if_neg hsm, if_neg hm, List.map_map]
    congr 1
    funext q
    simp only [Function.comp_apply]
    rw [Prod.mk.injEq]
    constructor <;> exact mul_div_mul_left _ _ hs

theorem relPoints_translate (off base : ℝ × ℝ) (pts : List (ℝ × ℝ)) :
    relPoints (base.1 + off.1, base.2 + off.2)
      (pts.map (fun p => (p.1 + off.1, p.2 + off.2))) = relPoints base pts := by
  unfold relPoints
  rw [List.map_map]
  congr 1
  funext p
  simp only [Function.comp_apply]
  rw [Prod.mk.injEq]
  constructor <;> ring

theorem relPoints_rescale (s : ℝ) (base : ℝ × ℝ) (pts : List (ℝ × ℝ)) :
    relPoints (base.1 + s * (base.1 - base.1), base.2 + s * (base.2 - base.2))
      (pts.map (fun p =>
        (base.1 + s * (p.1 - base.1), base.2 + s * (p.2 - base.2)))) =
      (relPoints base pts).map (fun q => (s * q.1, s * q.2)) := by
  unfold relPoints
  rw [List.map_map, List.map_map]
  congr 1
  funext p
  simp only [Function.comp_apply]
  rw [Prod.mk.injEq]
  constructor <;> ring

/-- C2: `preprocess_pts` is invariant under translating every point by a
common offset, and under rescaling every point about the first point by a
positive factor (exact equality in the real-number model; the spec's
"floating-point tolerance" is an artifact of float arithmetic). -/
theorem C2_translation_scale_invariance (pts : List (ℝ × ℝ)) (off : ℝ × ℝ)
    (s : ℝ) (hs : 0 < s) :
    preprocess_pts (pts.map (fun p => (p.1 + off.1, p.2 + off.2))) =
      preprocess_pts pts ∧
    preprocess_pts (pts.map (fun p =>
      ((pts.headD (0, 0)).1 + s * (p.1 - (pts.headD (0, 0)).1),
       (pts.headD (0, 0)).2 + s * (p.2 - (pts.headD (0, 0)).2)))) =
      preprocess_pts pts := by
  rcases pts with _ | ⟨base, rest⟩
  · exact ⟨rfl, rfl⟩
  · constructor
    · show preprocess_pts
        ((base.1 + off.1, base.2 + off.2) ::
          rest.map (fun p => (p.1 + off.1, p.2 + off.2))) = _
      have hrel := relPoints_translate off base (base :: rest)
      simp only [List.map_cons] at hrel
      show flat2 (scaleRel (maxDist _) _) = _
      rw [hrel]
      rfl
    · simp only [List.headD_cons]
      show preprocess_pts
        ((base.1 + s * (base.1 - base.1), base.2 + s * (base.2 - base.2)) ::
          rest.map (fun p =>
            (base.1 + s * (p.1 - base.1), base.2 + s * (p.2 - base.2)))) = _
      have hrel := relPoints_rescale s base (base :: rest)
      simp only [List.map_cons] at hrel
      show flat2 (scaleRel (maxDist _) _) = _
      rw [hrel, maxDist_smul s hs.le, scaleRel_smul s (ne_of_gt hs)]
      rfl

/-- Witness for C2: a two-point sample, offset `(1, 2)`, factor `2`. -/
theorem C2_witness :
    (0:ℝ) < 2 ∧
    preprocess_pts ([((3:ℝ), 4), (5, 6)].map (fun p => (p.1 + 1, p.2 + 2))) =
      preprocess_pts [((3:ℝ), 4), (5, 6)] := by
  refine ⟨by norm_num, ?_⟩
  exact (C2_translation_scale_invariance [((3:ℝ), 4), (5, 6)] (1, 2) 2
    (by norm_num)).1

/-! ## Dataset lemmas (`GestureDataset.__init__`) -/

theorem preprocess_gesture_zero126 :
    preprocess_gesture (List.replicate 126 (0:ℝ)) = .ok (List.replicate 84 0) := by
  have h126 : (126 : ℕ) = 3 * 42 := by norm_num
  have h1 : chunk3 (List.replicate 126 (0:ℝ)) =
      List.replicate 42 (0, 0, 0) := by
    rw [h126, chunk3_replicate]
  have h3 : List.replicate 42 (((0:ℝ), (0:ℝ)) : ℝ × ℝ) =
      ((0:ℝ), (0:ℝ)) :: List.replicate 41 ((0:ℝ), 0) := by
    rw [show (42 : ℕ) = 41 + 1 by norm_num, List.replicate_succ]
  have h2 : preprocess_pts (List.replicate 42 ((0:ℝ), 0)) =
      List.replicate 84 0 := by
    rw [h3]
    have h4 := preprocess_pts_of_all_eq ((0:ℝ), (0:ℝ))
      (List.replicate 41 ((0:ℝ), 0))
      (by intro p hp
          rcases List.mem_cons.1 hp with h | h
          · exact h
          · exact List.eq_of_mem_replicate h)
    simpa using h4
  unfold preprocess_gesture
  rw [if_pos (by simp), h1]
  rw [List.map_replicate]
  show Except.ok (preprocess_pts (List.replicate 42 ((0:ℝ), 0))) = _
  rw [h2]

theorem processStored_cons (feature_dim : ℕ) (r : List ℝ) (rs : List (List ℝ))
    (a : List ℝ) (hok : preprocess_gesture r = .ok a) :
    processStored feature_dim (r :: rs) =
      (processStored feature_dim rs).map
        (fun rest => if a.length = feature_dim then a :: rest else rest) := by
  simp only [processStored, hok]
  cases processStored feature_dim rs <;> rfl

theorem processStored_replicate (feature_dim n : ℕ) (r a : List ℝ)
    (hok : preprocess_gesture r = .ok a) (hlen : a.length = feature_dim) :
    processStored feature_dim (List.replicate n r) =
      .ok (List.replicate n a) := by
  induction n with
  | zero => rfl
  | succ m ih =>
      rw [List.replicate_succ, processStored_cons feature_dim r _ a hok, ih]
      simp [Except.map, hlen, List.replicate_succ]

theorem processOthers_cons (feature_dim : ℕ) (g : List (List ℝ))
    (gs : List (List (List ℝ))) (p : List (List ℝ))
    (hok : processStored feature_dim g = .ok p) :
    processOthers feature_dim (g :: gs) =
      (processOthers feature_dim gs).map (fun rest => p ++ rest) := by
  simp only [processOthers, hok]
  cases processOthers feature_dim gs <;> rfl

theorem processOthers_replicate (feature_dim k : ℕ) (g : List (List ℝ))
    (p : List (List ℝ)) (hok : processStored feature_dim g = .ok p) :
    processOthers feature_dim (List.replicate k g) =
      .ok ((List.replicate k p).flatten) := by
  induction k with
  | zero => rfl
  | succ m ih =>
      rw [List.replicate_succ, processOthers_cons feature_dim g _ p hok, ih]
      simp [Except.map, List.replicate_succ]

/-! ## Claim C5: dataset composition and counts -/

/-- C5: the assembled training set is the valid preprocessed positives,
then the shuffled cross-gesture negatives truncated to
`len(positives) * negative_ratio`, then exactly 20 noise vectors and
exactly 10 zero vectors; positives are labeled 1 and everything else 0,
and the total count is `pos + min (pos * negative_ratio) pool + 30`. -/
theorem C5_dataset_composition (feature_dim negFactor : ℕ)
    (posStored : List (List ℝ)) (otherStored : List (List (List ℝ)))
    (shuffle : List (List ℝ) → List (List ℝ)) (noiseGen : ℕ → List ℝ)
    (pos pool : List (List ℝ))
    (hpos : processStored feature_dim posStored = .ok pos)
    (hpool : processOthers feature_dim otherStored = .ok pool)
    (hshuffle : (shuffle pool).length = pool.length) :
    ∃ d, gestureDatasetInit feature_dim negFactor posStored otherStored
        shuffle noiseGen = .ok d ∧
      d.samples = pos ++ (shuffle pool).take (pos.length * negFactor) ++
        (List.range 20).map noiseGen ++
        List.replicate 10 (List.replicate feature_dim 0) ∧
      d.samples.length =
        pos.length + min (pos.length * negFactor) pool.length + 20 + 10 ∧
      d.labels = List.replicate pos.length 1 ++
        List.replicate (min (pos.length * negFactor) pool.length + 20 + 10) 0 := by
  have hnl : ((shuffle pool).take (pos.length * negFactor)).length =
      min (pos.length * negFactor) pool.length := by
    rw [List.length_take, hshuffle]
  have hslen : (pos ++ (shuffle pool).take (pos.length * negFactor) ++
      (List.range 20).map noiseGen ++
      List.replicate 10 (List.replicate feature_dim (0:ℝ))).length =
      pos.length + min (pos.length * negFactor) pool.length + 20 + 10 := by
    simp [hnl]
    omega
  refine ⟨⟨pos ++ (shuffle pool).take (pos.length * negFactor) ++
      (List.range 20).map noiseGen ++
      List.replicate 10 (List.replicate feature_dim 0),
      List.replicate pos.length 1 ++
      List.replicate ((shuffle pool).take (pos.length * negFactor)).length 0 ++
      List.replicate 20 0 ++ List.replicate 10 0⟩, ?_, ?_, ?_, ?_⟩
  · unfold gestureDatasetInit
    rw [hpos, hpool]
    simp only []
    rw [if_neg (by rw [hslen]; omega)]
  · rfl
  · exact hslen
  · show List.replicate pos.length (1:ℚ) ++
      List.replicate ((shuffle pool).take (pos.length * negFactor)).length 0 ++
      List.replicate 20 0 ++ List.replicate 10 0 = _
    rw [hnl, List.append_assoc, List.append_assoc, ← List.replicate_add,
      ← List.replicate_add]

/-- Witness for C5: 10 positives, 3 other gestures of 5 samples each
(all valid all-zero samples), `negative_ratio = 1`, identity shuffle:
total sample count is 50. -/
theorem C5_witness :
    ∃ d, gestureDatasetInit 84 1 (List.replicate 10 (List.replicate 126 0))
        (List.replicate 3 (List.replicate 5 (List.replicate 126 0)))
        id (fun _ => []) = .ok d ∧ d.samples.length = 50 := by
  have hstored : processStored 84 (List.replicate 5 (List.replicate 126 (0:ℝ))) =
      .ok (List.replicate 5 (List.replicate 84 0)) :=
    processStored_replicate 84 5 _ _ preprocess_gesture_zero126 (by simp)
  obtain ⟨d, hd, _, hlen, _⟩ := C5_dataset_composition 84 1
    (List.replicate 10 (List.replicate 126 0))
    (List.replicate 3 (List.replicate 5 (List.replicate 126 0)))
    id (fun _ => [])
    (List.replicate 10 (List.replicate 84 0))
    ((List.replicate 3 (List.replicate 5 (List.replicate 84 (0:ℝ)))).flatten)
    (processStored_replicate 84 10 _ _ preprocess_gesture_zero126 (by simp))
    (processOthers_replicate 84 3 _ _ hstored)
    rfl
  refine ⟨d, hd, ?_⟩
  rw [hlen]
  simp

/-! ## Claim C10: the empty-dataset error branch is unreachable -/

/-- C10: `GestureDataset.__init__` can never raise the empty-dataset
error, because 20 noise and 10 zero samples are appended unconditionally;
whenever construction reaches the final emptiness check (both collection
loops succeeded), the assembled sample set has at least 30 elements. -/
theorem C10_empty_branch_unreachable (feature_dim negFactor : ℕ)
    (posStored : List (List ℝ)) (otherStored : List (List (List ℝ)))
    (shuffle : List (List ℝ) → List (List ℝ)) (noiseGen : ℕ → List ℝ) :
    gestureDatasetInit feature_dim negFactor posStored otherStored
        shuffle noiseGen ≠ .error .emptyDataset ∧
    (∀ pos pool, processStored feature_dim posStored = .ok pos →
      processOthers feature_dim otherStored = .ok pool →
      ∃ d, gestureDatasetInit feature_dim negFactor posStored otherStored
          shuffle noiseGen = .ok d ∧ 30 ≤ d.samples.length) := by
  constructor
  · unfold gestureDatasetInit
    rcases hpos : processStored feature_dim posStored with e | pos
    · simp
    · rcases hpool : processOthers feature_dim otherStored with e | pool
      · simp
      · simp only []
        rw [if_neg (by simp)]
        simp
  · intro pos pool hpos hpool
    refine ⟨⟨pos ++ (shuffle pool).take (pos.length * negFactor) ++
        (List.range 20).map noiseGen ++
        List.replicate 10 (List.replicate feature_dim 0),
        List.replicate pos.length 1 ++
        List.replicate ((shuffle pool).take (pos.length * negFactor)).length 0 ++
        List.replicate 20 0 ++ List.replicate 10 0⟩, ?_, ?_⟩
    · unfold gestureDatasetInit
      rw [hpos, hpool]
      simp only []
      rw [if_neg (by simp)]
    · simp
      omega

/-- Witness for C10: no gestures and no stored samples at all still yield
30 synthetic samples. -/
theorem C10_witness :
    ∃ d, gestureDatasetInit 84 1 [] [] id (fun _ => []) = .ok d ∧
      30 ≤ d.samples.length :=
  (C10_empty_branch_unreachable 84 1 [] [] id (fun _ => [])).2 [] [] rfl rfl

/-! ## Claim C6: dataset health check -/

/-- C6: `health_check` applies its tests in order: empty directory, then
zero-sample ratio above 0.05, then mean present-landmark count below 5,
then standard deviation above 6, else healthy. -/
theorem C6_health_check (directory : List (List ℚ)) :
    (directory.length = 0 → health_check directory = (false, "empty")) ∧
    (directory.length ≠ 0 →
      ((zeroCount directory : ℚ) / directory.length > 5 / 100 →
        health_check directory = (false, "zeros")) ∧
      ((zeroCount directory : ℚ) / directory.length ≤ 5 / 100 →
        ((countsMean directory < 5 →
            health_check directory = (false, "landmarks")) ∧
         (5 ≤ countsMean directory →
           ((countsStd directory > 6 →
               health_check directory = (false, "inconsistent")) ∧
            (countsStd directory ≤ 6 →
              health_check directory = (true, "healthy"))))))) := by
  unfold health_check ZERO_LANDMARKS_THRESHOLD MEAN_LANDMARKS_THRESHOLD
    STD_LANDMARKS_THRESHOLD
  refine ⟨fun h0 => ?_, fun h0 => ⟨fun hz => ?_, fun hz => ⟨fun hm => ?_,
    fun hm => ⟨fun hstd => ?_, fun hstd => ?_⟩⟩⟩⟩
  · rw [if_pos h0]
  · rw [if_neg h0, if_pos hz]
  · rw [if_neg h0, if_neg (not_lt.2 hz), if_pos hm]
  · rw [if_neg h0, if_neg (not_lt.2 hz), if_neg (not_lt.2 hm), if_pos hstd]
  · rw [if_neg h0, if_neg (not_lt.2 hz), if_neg (not_lt.2 hm),
      if_neg (not_lt.2 hstd)]

/-- Witness for C6: 20 samples of which 2 have zero present landmarks:
zero ratio 0.10 exceeds 0.05, verdict "zeros". -/
theorem C6_witness :
    health_check (List.replicate 18 ([1, 0, 0] : List ℚ) ++
      List.replicate 2 [0, 0, 0]) = (false, "zeros") := by
  have hzc : zeroCount (List.replicate 18 ([1, 0, 0] : List ℚ) ++
      List.replicate 2 [0, 0, 0]) = 2 := by decide
  have hlen : (List.replicate 18 ([1, 0, 0] : List ℚ) ++
      List.replicate 2 [0, 0, 0]).length = 20 := by simp
  apply ((C6_health_check _).2 (by simp)).1
  rw [hzc, hlen]
  norm_num

/-! ## Claim C7: meta-classifier training abort -/

/-- C7: `train_meta_classifier` aborts (reported, not raised) and leaves
the model store untouched exactly when fewer than 2 distinct labels occur
in the combined training set; otherwise it trains and saves. -/
theorem C7_meta_training_abort (input_size : ℕ)
    (stored : List (List (List ℝ))) (store : Option Unit) (y : List ℕ)
    (hy : metaTrainLabels input_size stored = .ok y) :
    ((train_meta_classifier input_size stored store = .ok (.aborted, store)) ↔
      y.dedup.length < 2) ∧
    (2 ≤ y.dedup.length →
      train_meta_classifier input_size stored store =
        .ok (.savedModel, some ())) := by
  have hmain : train_meta_classifier input_size stored store =
      if y.dedup.length < 2 then .ok (.aborted, store)
      else .ok (.savedModel, some ()) := by
    unfold train_meta_classifier
    rw [hy]
    rfl
  constructor
  · rw [hmain]
    constructor
    · intro h
      by_contra hlt
      rw [if_neg hlt] at h
      simp at h
    · intro h
      rw [if_pos h]
  · intro h
    rw [hmain, if_neg (by omega)]

/-- Witness for C7: one gesture with no stored samples; only the unknown
label occurs, training aborts and the pre-existing artifact survives. -/
theorem C7_witness :
    train_meta_classifier 84 [[]] (some ()) = .ok (.aborted, some ()) := by
  have hy : metaTrainLabels 84 [[]] =
      .ok ([] ++ List.replicate 50 1 ++ List.replicate 20 1) := rfl
  exact (C7_meta_training_abort 84 [[]] (some ()) _ hy).1.mpr (by decide)

/-! ## Claim C9: per-frame callback contract -/

/-- C9: on every processed frame the engine stores the result; the frame
callback receives the full result whenever it was supplied; the gesture
callback fires exactly when the label differs from "unknown"; and no
invocation of the gesture callback ever carries the label "unknown". -/
theorem C9_frame_callbacks (hasCallback hasOnGesture : Bool)
    (r : RecognitionResult) (s : LoopState) :
    (processFrame hasCallback hasOnGesture r s).lastResult = some r ∧
    (hasCallback = true →
      (processFrame hasCallback hasOnGesture r s).onFrameCalls =
        s.onFrameCalls ++ [r]) ∧
    (hasOnGesture = true →
      ((processFrame hasCallback hasOnGesture r s).onGestureCalls =
        s.onGestureCalls ++ [r] ↔ r.label ≠ "unknown")) ∧
    (∀ r2 ∈ (processFrame hasCallback hasOnGesture r s).onGestureCalls,
      r2 ∉ s.onGestureCalls → r2.label ≠ "unknown") := by
  refine ⟨rfl, ?_, ?_, ?_⟩
  · intro h
    simp [processFrame, h]
  · intro h
    by_cases hu : r.label = "unknown"
    · show (if hasOnGesture = true ∧ r.label ≠ "unknown"
          then s.onGestureCalls ++ [r] else s.onGestureCalls) =
          s.onGestureCalls ++ [r] ↔ r.label ≠ "unknown"
      rw [if_neg (by simp [hu])]
      apply iff_of_false
      · intro he
        have := congrArg List.length he
        simp at this
      · exact fun hne => hne hu
    · show (if hasOnGesture = true ∧ r.label ≠ "unknown"
          then s.onGestureCalls ++ [r] else s.onGestureCalls) =
          s.onGestureCalls ++ [r] ↔ r.label ≠ "unknown"
      rw [if_pos ⟨h, hu⟩]
      exact iff_of_true rfl hu
  · intro r2 h2 hnot
    have h2s : r2 ∈ (if hasOnGesture = true ∧ r.label ≠ "unknown"
        then s.onGestureCalls ++ [r] else s.onGestureCalls) := h2
    by_cases hc : hasOnGesture = true ∧ r.label ≠ "unknown"
    · rw [if_pos hc] at h2s
      rcases List.mem_append.1 h2s with h | h
      · exact absurd h hnot
      · rw [List.mem_singleton.1 h]
        exact hc.2
    · rw [if_neg hc] at h2s
      exact absurd h2s hnot

/-- Witness for C9: both callbacks supplied, a "fire" frame on a fresh
state. -/
theorem C9_witness :
    (processFrame true true ⟨"fire", [], [], [], []⟩
      ⟨none, [], []⟩).onFrameCalls = [] ++ [⟨"fire", [], [], [], []⟩] :=
  (C9_frame_callbacks true true ⟨"fire", [], [], [], []⟩ ⟨none, [], []⟩).2.1 rfl
